import Mathlib

/-!
Shallow embedding of `src/app.py` (a task tracker: `Task` and `TaskManager`).

Conventions of the embedding:
* Python `datetime` values are modelled as `DateTime` records with second
  granularity (the program formats timestamps with `%Y-%m-%d %H:%M:%S` and
  comparisons at sub-second precision never matter for the properties here);
  comparison of `datetime` objects is field-lexicographic, as in CPython.
* Python `None`-able fields are `Option`s; Python string truthiness
  (`if self.deadline:`) is modelled explicitly (`None` and `""` are falsy).
* Fallible Python code (exceptions from `json.load`, `KeyError`,
  `datetime.strptime`) is modelled with `Except`.
* The backing file is carried inside the `TaskManager` state as an
  `Option FileData`: `none` means the file does not exist, `.junk` a file
  whose contents is not valid JSON, `.json v` a file holding the JSON value
  `v`.  `save_tasks` writes the file, `load_tasks` reads it.
-/

namespace App

/-- A calendar date, as produced by `datetime.strptime(s, "%Y-%m-%d")`. -/
structure Date where
  year : Nat
  month : Nat
  day : Nat
deriving DecidableEq, Repr

/-- A `datetime.datetime` value at second granularity. -/
structure DateTime where
  year : Nat
  month : Nat
  day : Nat
  hour : Nat
  minute : Nat
  second : Nat
deriving DecidableEq, Repr

/-- CPython compares `datetime` values lexicographically by field. -/
def dtLt (a b : DateTime) : Bool :=
  if a.year ≠ b.year then decide (a.year < b.year)
  else if a.month ≠ b.month then decide (a.month < b.month)
  else if a.day ≠ b.day then decide (a.day < b.day)
  else if a.hour ≠ b.hour then decide (a.hour < b.hour)
  else if a.minute ≠ b.minute then decide (a.minute < b.minute)
  else decide (a.second < b.second)

/-- `datetime.strptime(s, "%Y-%m-%d")` yields midnight of the parsed date. -/
def midnightOf (d : Date) : DateTime :=
  ⟨d.year, d.month, d.day, 0, 0, 0⟩

/-- Split a character list at every `'-'` (so `"2024-05-10"` becomes the
three groups `2024`, `05`, `10`, and a string with the wrong number of
dashes yields the wrong number of groups). -/
def splitOnDash : List Char → List (List Char)
  | [] => [[]]
  | c :: rest =>
    if c = '-' then [] :: splitOnDash rest
    else
      match splitOnDash rest with
      | [] => [[c]]
      | g :: gs => (c :: g) :: gs

/-- A nonempty group of decimal digits, read as a number. -/
def parseNatDigits (l : List Char) : Option Nat :=
  if !l.isEmpty && l.all Char.isDigit then
    some (l.foldl (fun a c => a * 10 + (c.toNat - 48)) 0)
  else none

def isLeap (y : Nat) : Bool :=
  (y % 4 = 0 && y % 100 ≠ 0) || y % 400 = 0

def daysInMonth (y m : Nat) : Nat :=
  if m = 2 then (if isLeap y then 29 else 28)
  else if m = 4 ∨ m = 6 ∨ m = 9 ∨ m = 11 then 30
  else 31

/-- `datetime.strptime(s, "%Y-%m-%d")`: `%Y` is four digits, `%m` and `%d`
one or two digits, the whole string must be consumed, and month/day must be
a real calendar date; on failure CPython raises `ValueError`, modelled as
`none`. -/
def strptimeYmd (s : String) : Option Date :=
  match splitOnDash s.toList with
  | [ys, ms, ds] =>
    match parseNatDigits ys, parseNatDigits ms, parseNatDigits ds with
    | some y, some mo, some d =>
      if ys.length = 4 && ms.length ≤ 2 && 1 ≤ mo && mo ≤ 12
          && ds.length ≤ 2 && 1 ≤ d && d ≤ daysInMonth y mo
      then some ⟨y, mo, d⟩ else none
    | _, _, _ => none
  | _ => none

/-- The `Task` record of `app.py`.  `id` is `None` before the task is added
to a manager; `created_at` and `completed_at` are formatted timestamp
strings, `deadline` a raw `"YYYY-MM-DD"` string (never parsed until
`is_overdue`). -/
structure Task where
  id : Option Int
  title : String
  description : String
  priority : String
  category : String
  completed : Bool
  created_at : String
  deadline : Option String
  completed_at : Option String
deriving DecidableEq, Repr

/-- `Task.__init__(title, description, priority, category, deadline)`;
`now` is the `datetime.now()` timestamp string captured for `created_at`. -/
def Task.construct (title description priority category : String)
    (deadline : Option String) (now : String) : Task :=
  { id := none
    title := title
    description := description
    priority := priority
    category := category
    completed := false
    created_at := now
    deadline := deadline
    completed_at := none }

/-- `Task.mark_complete`; `now` is the `datetime.now()` timestamp string. -/
def Task.markComplete (t : Task) (now : String) : Task :=
  { t with completed := true, completed_at := some now }

/-- Python truthiness of the `deadline` field: `None` and `""` are falsy,
every nonempty string is truthy. -/
def deadlineTruthy : Option String → Bool
  | none => false
  | some s => decide (s ≠ "")

/-- `Task.is_overdue`, evaluated at current time `now`.  The Python body is
`if self.deadline and not self.completed: return datetime.now() >
strptime(self.deadline, "%Y-%m-%d")` else `False`; an unparsable deadline
raises `ValueError`, modelled as `.error`.  Note the comparison is between
the full current `datetime` and midnight of the deadline date. -/
def Task.isOverdue (t : Task) (now : DateTime) : Except String Bool :=
  if deadlineTruthy t.deadline && !t.completed then
    match strptimeYmd (t.deadline.getD "") with
    | some d => .ok (dtLt (midnightOf d) now)
    | none => .error "ValueError: time data does not match format %Y-%m-%d"
  else
    .ok false

/-- JSON values, as handled by Python's `json` module. -/
inductive JVal where
  | null : JVal
  | bool : Bool → JVal
  | int : Int → JVal
  | str : String → JVal
  | arr : List JVal → JVal
  | obj : List (String × JVal) → JVal
deriving Repr

/-- Key lookup in a JSON object.  Python dicts have unique keys, so
first-match lookup agrees with dict access. -/
def lookupField : List (String × JVal) → String → Option JVal
  | [], _ => none
  | (k, v) :: rest, key => if k = key then some v else lookupField rest key

/-- Errors raised while loading persisted state: `json.load` failure,
subscripting / `.get` on a value of the wrong shape, and `KeyError` on a
missing task-record field.  All are uncaught (fatal) in `app.py`. -/
inductive LoadErr where
  | jsonDecode : LoadErr
  | typeError : LoadErr
  | keyError : String → LoadErr
deriving DecidableEq, Repr

/-- Encoding of a Python `None`-able int (`id`): `None` ↦ `null`. -/
def optIntJ : Option Int → JVal
  | none => .null
  | some n => .int n

/-- Encoding of a Python `None`-able string (`deadline`, `completed_at`). -/
def optStrJ : Option String → JVal
  | none => .null
  | some s => .str s

/-- `Task.to_dict`. -/
def Task.toDict (t : Task) : JVal :=
  .obj [("id", optIntJ t.id),
        ("title", .str t.title),
        ("description", .str t.description),
        ("priority", .str t.priority),
        ("category", .str t.category),
        ("completed", .bool t.completed),
        ("created_at", .str t.created_at),
        ("deadline", optStrJ t.deadline),
        ("completed_at", optStrJ t.completed_at)]

/-- `data[k]` expecting a string.  Python assigns the value with no type
check; the embedding restricts records to field values of the declared
shape (all records the program itself writes are of this shape). -/
def getStr (fields : List (String × JVal)) (k : String) : Except LoadErr String :=
  match lookupField fields k with
  | none => .error (.keyError k)
  | some (.str s) => .ok s
  | some _ => .error .typeError

/-- `data[k]` expecting a bool. -/
def getBool (fields : List (String × JVal)) (k : String) : Except LoadErr Bool :=
  match lookupField fields k with
  | none => .error (.keyError k)
  | some (.bool b) => .ok b
  | some _ => .error .typeError

/-- `data[k]` expecting an int or `null`. -/
def getOptInt (fields : List (String × JVal)) (k : String) : Except LoadErr (Option Int) :=
  match lookupField fields k with
  | none => .error (.keyError k)
  | some .null => .ok none
  | some (.int n) => .ok (some n)
  | some _ => .error .typeError

/-- `data[k]` expecting a string or `null`. -/
def getOptStr (fields : List (String × JVal)) (k : String) : Except LoadErr (Option String) :=
  match lookupField fields k with
  | none => .error (.keyError k)
  | some .null => .ok none
  | some (.str s) => .ok (some s)
  | some _ => .error .typeError

/-- `Task.from_dict`.  The constructor arguments are read first (`title`,
`description`, `priority`, `category`, `deadline`), then `id`, `completed`,
`created_at`, `completed_at` — so a missing field raises `KeyError` in that
order.  A non-dict argument fails on subscripting. -/
def Task.fromDict : JVal → Except LoadErr Task
  | .obj fields => do
    let title ← getStr fields "title"
    let description ← getStr fields "description"
    let priority ← getStr fields "priority"
    let category ← getStr fields "category"
    let deadline ← getOptStr fields "deadline"
    let id ← getOptInt fields "id"
    let completed ← getBool fields "completed"
    let created_at ← getStr fields "created_at"
    let completed_at ← getOptStr fields "completed_at"
    .ok { id, title, description, priority, category, completed,
          created_at, deadline, completed_at }
  | _ => .error .typeError

/-- Contents of the backing file: text that is not valid JSON, or a JSON
value.  (`none` at the `Option FileData` level means the file is absent.) -/
inductive FileData where
  | junk : FileData
  | json : JVal → FileData
deriving Repr

/-- The `TaskManager` state: task list, `next_id` counter, and the contents
of the backing file (`self.filename`), carried in the state so persistence
effects are observable. -/
structure TaskManager where
  tasks : List Task
  next_id : Int
  file : Option FileData
deriving Repr

/-- `TaskManager.save_tasks`: rewrites the backing file with
`{"next_id": ..., "tasks": [...]}`. -/
def saveTasks (m : TaskManager) : TaskManager :=
  { m with file := some (.json (.obj
      [("next_id", .int m.next_id),
       ("tasks", .arr (m.tasks.map Task.toDict))])) }

/-- `TaskManager.load_tasks`: absent file — no change; unparsable file —
`json.load` raises; otherwise `data.get('next_id', 1)` and
`data.get('tasks', [])` default MISSING keys silently, and each record is
decoded with `Task.from_dict`.  `.get` on a non-dict raises
`AttributeError`. -/
def loadTasks (m : TaskManager) : Except LoadErr TaskManager :=
  match m.file with
  | none => .ok m
  | some .junk => .error .jsonDecode
  | some (.json (.obj fields)) => do
    let nid ← match lookupField fields "next_id" with
      | none => pure (1 : Int)
      | some (.int n) => pure n
      | some _ => .error .typeError
    let recs ← match lookupField fields "tasks" with
      | none => pure ([] : List JVal)
      | some (.arr l) => pure l
      | some _ => .error .typeError
    let tasks ← recs.mapM Task.fromDict
    .ok { m with next_id := nid, tasks := tasks }
  | some (.json _) => .error .typeError

/-- `TaskManager.__init__(filename)`: start from `tasks = []`,
`next_id = 1`, then `load_tasks()` from the given backing file. -/
def TaskManager.init (file : Option FileData) : Except LoadErr TaskManager :=
  loadTasks { tasks := [], next_id := 1, file := file }

/-- `TaskManager.get_task`: first task whose `id` equals the argument
(`None == task_id` is `False` in Python, matching `t.id == some taskId`). -/
def getTask (m : TaskManager) (taskId : Int) : Option Task :=
  m.tasks.find? (fun t => t.id == some taskId)

/-- `TaskManager.add_task`: assign `next_id` as the task's id, append,
bump the counter, persist, return the id. -/
def addTask (m : TaskManager) (t : Task) : Int × TaskManager :=
  let t' := { t with id := some m.next_id }
  (m.next_id,
   saveTasks { m with tasks := m.tasks ++ [t'], next_id := m.next_id + 1 })

/-- `TaskManager.delete_task`: look up the task, remove that object from
the list (`list.remove` drops the first equal element) and persist when
found; otherwise return `False` with no state change and no file write. -/
def deleteTask (m : TaskManager) (taskId : Int) : Bool × TaskManager :=
  match getTask m taskId with
  | some t => (true, saveTasks { m with tasks := m.tasks.erase t })
  | none => (false, m)

/-- In-place `task.mark_complete()` on the object found by `get_task`,
i.e. on the first list element with the matching id. -/
def markFirst : List Task → Int → String → List Task
  | [], _, _ => []
  | t :: rest, taskId, now =>
    if t.id == some taskId then Task.markComplete t now :: rest
    else t :: markFirst rest taskId now

/-- `TaskManager.complete_task`: look up the task, `mark_complete` it and
persist when found, return whether it was found. -/
def completeTask (m : TaskManager) (taskId : Int) (now : String) : Bool × TaskManager :=
  match getTask m taskId with
  | some _ => (true, saveTasks { m with tasks := markFirst m.tasks taskId now })
  | none => (false, m)

/-- `TaskManager.get_tasks_by_category`: a pure list comprehension — no
assignment to `self`, no `save_tasks` call. -/
def getTasksByCategory (m : TaskManager) (category : String) : List Task :=
  m.tasks.filter (fun t => t.category == category)

/-- `TaskManager.get_tasks_by_priority`. -/
def getTasksByPriority (m : TaskManager) (priority : String) : List Task :=
  m.tasks.filter (fun t => t.priority == priority)

/-- `TaskManager.get_pending_tasks`. -/
def getPendingTasks (m : TaskManager) : List Task :=
  m.tasks.filter (fun t => !t.completed)

/-- `TaskManager.get_completed_tasks`. -/
def getCompletedTasks (m : TaskManager) : List Task :=
  m.tasks.filter (fun t => t.completed)

/-- `TaskManager.get_overdue_tasks`: the comprehension evaluates
`is_overdue` left to right and the first `ValueError` propagates. -/
def getOverdueTasks (m : TaskManager) (now : DateTime) : Except String (List Task) :=
  m.tasks.filterM (fun t => t.isOverdue now)

/-! ## Theorems -/

/-- With no deadline, `is_overdue` takes the `else` branch. -/
lemma isOverdue_of_deadline_none (t : Task) (now : DateTime)
    (hd : t.deadline = none) : t.isOverdue now = .ok false := by
  unfold Task.isOverdue
  rw [hd]
  rfl

/-- With an empty-string deadline (falsy), `is_overdue` takes the `else`
branch. -/
lemma isOverdue_of_deadline_empty (t : Task) (now : DateTime)
    (hd : t.deadline = some "") : t.isOverdue now = .ok false := by
  unfold Task.isOverdue
  rw [hd]
  rfl

/-- A completed task fails the `and not self.completed` test. -/
lemma isOverdue_of_completed (t : Task) (now : DateTime)
    (hc : t.completed = true) : t.isOverdue now = .ok false := by
  unfold Task.isOverdue
  rw [hc]
  simp

/-- A pending task with a truthy deadline reaches `strptime` and the
comparison against midnight of the parsed date. -/
lemma isOverdue_of_pending (t : Task) (now : DateTime) (s : String)
    (hd : t.deadline = some s) (hse : s ≠ "") (hc : t.completed = false) :
    t.isOverdue now =
      match strptimeYmd s with
      | some d => .ok (dtLt (midnightOf d) now)
      | none => .error "ValueError: time data does not match format %Y-%m-%d" := by
  unfold Task.isOverdue
  rw [hd, hc]
  simp [deadlineTruthy, hse]

/-- A concrete pending task whose deadline is `2024-05-10`. -/
def pendingToday : Task :=
  { id := some 1
    title := "t"
    description := ""
    priority := "medium"
    category := "general"
    completed := false
    created_at := "2024-05-10 12:00:00"
    deadline := some "2024-05-10"
    completed_at := none }

/-- Noon of that same day `2024-05-10`. -/
def noonOfDeadlineDay : DateTime := ⟨2024, 5, 10, 12, 0, 0⟩

/-- C2 counterexample: a pending task whose deadline equals the current
date IS reported overdue by the code at 12:00 of that day, because
`is_overdue` compares the full current `datetime` against midnight of the
deadline day (`datetime.now() > strptime(deadline, "%Y-%m-%d")`), not the
two dates at day granularity. -/
theorem is_overdue_today_counterexample :
    pendingToday.completed = false ∧
    pendingToday.deadline = some "2024-05-10" ∧
    noonOfDeadlineDay = ⟨2024, 5, 10, 12, 0, 0⟩ ∧
    pendingToday.isOverdue noonOfDeadlineDay = .ok true := by
  refine ⟨rfl, rfl, rfl, ?_⟩
  rfl

/-- C2 (amended): `is_overdue` returns `true` iff the deadline is present
and nonempty, the task is not completed, the deadline parses as
`YYYY-MM-DD`, and the current `datetime` is strictly after midnight
(00:00:00) of the deadline date.  Hence a pending task whose deadline is
one day in the past is overdue, a completed task never is, and a pending
task whose deadline equals the current date is overdue at any instant
strictly after midnight. -/
theorem is_overdue_iff_after_midnight (t : Task) (now : DateTime) :
    t.isOverdue now = .ok true ↔
      ∃ s d, t.deadline = some s ∧ s ≠ "" ∧ t.completed = false ∧
        strptimeYmd s = some d ∧ dtLt (midnightOf d) now = true := by
  constructor
  · intro h
    cases hd : t.deadline with
    | none => rw [isOverdue_of_deadline_none t now hd] at h; cases h
    | some s =>
      by_cases hse : s = ""
      · subst hse
        rw [isOverdue_of_deadline_empty t now hd] at h; cases h
      · cases hc : t.completed with
        | true => rw [isOverdue_of_completed t now hc] at h; cases h
        | false =>
          rw [isOverdue_of_pending t now s hd hse hc] at h
          cases hp : strptimeYmd s with
          | none => rw [hp] at h; cases h
          | some d =>
            rw [hp] at h
            have h' : (Except.ok (dtLt (midnightOf d) now) : Except String Bool) = .ok true := h
            refine ⟨s, d, rfl, hse, rfl, hp, ?_⟩
            injection h'
  · rintro ⟨s, d, hd, hse, hc, hp, hlt⟩
    rw [isOverdue_of_pending t now s hd hse hc, hp]
    show Except.ok (dtLt (midnightOf d) now) = .ok true
    rw [hlt]

/-- C9: a completed task is never reported overdue and never raises the
deadline parse error: `is_overdue` short-circuits on
`if self.deadline and not self.completed` before touching
`datetime.strptime`, so `.error` is reachable only when `completed` is
false — whatever the deadline string is. -/
theorem completed_never_overdue_never_parses (t : Task) (now : DateTime) :
    (t.completed = true → t.isOverdue now = .ok false) ∧
    (t.completed = true → ∀ s, Task.isOverdue { t with deadline := some s } now = .ok false) ∧
    (∀ e, t.isOverdue now = .error e → t.completed = false) := by
  refine ⟨fun hc => isOverdue_of_completed t now hc, fun hc s => ?_, fun e he => ?_⟩
  · exact isOverdue_of_completed { t with deadline := some s } now hc
  · cases hc : t.completed with
    | false => rfl
    | true => rw [isOverdue_of_completed t now hc] at he; cases he

/-- A concrete completed task carrying an unparsable deadline string. -/
def doneBadDeadline : Task :=
  { id := some 2
    title := "t"
    description := ""
    priority := "low"
    category := "general"
    completed := true
    created_at := "2024-05-10 12:00:00"
    deadline := some "not-a-date"
    completed_at := some "2024-05-11 09:00:00" }

/-- C9 witness: the unparsable deadline `"not-a-date"` raises no error on a
completed task — `is_overdue` returns `ok false`. -/
theorem completed_never_overdue_witness :
    doneBadDeadline.isOverdue noonOfDeadlineDay = .ok false ∧
    Task.isOverdue { doneBadDeadline with deadline := some "also-bad" } noonOfDeadlineDay = .ok false :=
  ⟨(completed_never_overdue_never_parses doneBadDeadline noonOfDeadlineDay).1 rfl,
   (completed_never_overdue_never_parses doneBadDeadline noonOfDeadlineDay).2.1 rfl "also-bad"⟩

/-- C10: an empty-string deadline is falsy in Python, so `is_overdue`
takes the same branch as no deadline at all: it returns `false` and never
reaches `strptime`, for every completion state and every current date. -/
theorem empty_deadline_not_overdue (t : Task) (now : DateTime)
    (h : t.deadline = some "") :
    t.isOverdue now = .ok false :=
  isOverdue_of_deadline_empty t now h

/-- C10 witness: a pending task with `deadline = ""` evaluates to
`ok false` on a concrete date. -/
theorem empty_deadline_not_overdue_witness :
    Task.isOverdue { pendingToday with deadline := some "" } noonOfDeadlineDay = .ok false :=
  empty_deadline_not_overdue { pendingToday with deadline := some "" } noonOfDeadlineDay rfl

/-- The completion invariant: `completed` holds iff `completed_at` is set. -/
def completionInv (t : Task) : Prop :=
  t.completed = true ↔ t.completed_at.isSome = true

/-- `mark_complete` re-establishes the completion invariant
unconditionally. -/
lemma completionInv_markComplete (t : Task) (now : String) :
    completionInv (t.markComplete now) := by
  simp [completionInv, Task.markComplete]

/-- The invariant survives any further run of `mark_complete` calls. -/
lemma completionInv_foldl (times : List String) (t : Task)
    (h : completionInv t) :
    completionInv (times.foldl Task.markComplete t) := by
  induction times generalizing t with
  | nil => exact h
  | cons u rest ih => exact ih (t.markComplete u) (completionInv_markComplete t u)

/-- C4: a task built by `Task.__init__` and then hit by any sequence of
`mark_complete` calls always satisfies `completed == true` iff
`completed_at` is set — `__init__` starts with `completed = False`,
`completed_at = None`, and `mark_complete` sets both together. -/
theorem construct_markComplete_completion_invariant
    (title description priority category : String) (deadline : Option String)
    (created : String) (times : List String) :
    completionInv
      (times.foldl Task.markComplete
        (Task.construct title description priority category deadline created)) := by
  apply completionInv_foldl
  simp [completionInv, Task.construct]

/-- A mutation step on the store: §4.2's `Add` or `Delete`. -/
inductive Op where
  | add : Task → Op
  | del : Int → Op

/-- Apply one operation, keeping only the resulting state. -/
def applyOp (m : TaskManager) : Op → TaskManager
  | .add t => (addTask m t).2
  | .del i => (deleteTask m i).2

/-- The IDs handed out by the `add_task` calls of a run, in call order. -/
def assignedIds : TaskManager → List Op → List Int
  | _, [] => []
  | m, .add t :: ops => (addTask m t).1 :: assignedIds (applyOp m (.add t)) ops
  | m, .del i :: ops => assignedIds (applyOp m (.del i)) ops

/-- `delete_task` never touches the `next_id` counter. -/
lemma next_id_deleteTask (m : TaskManager) (i : Int) :
    ((deleteTask m i).2).next_id = m.next_id := by
  unfold deleteTask
  cases getTask m i <;> rfl

/-- Every ID a run hands out is at least the starting counter value. -/
lemma le_assignedIds (ops : List Op) (m : TaskManager) :
    ∀ x ∈ assignedIds m ops, m.next_id ≤ x := by
  induction ops generalizing m with
  | nil => intro x hx; cases hx
  | cons op rest ih =>
    cases op with
    | add t =>
      intro x hx
      rcases List.mem_cons.mp hx with h | h
      · exact le_of_eq h.symm
      · have := ih (applyOp m (.add t)) x h
        have hnext : (applyOp m (.add t)).next_id = m.next_id + 1 := rfl
        rw [hnext] at this
        omega
    | del i =>
      intro x hx
      have := ih (applyOp m (.del i)) x hx
      rwa [show (applyOp m (.del i)).next_id = m.next_id from next_id_deleteTask m i] at this

/-- C1: over any interleaving of `add_task` and `delete_task` calls, the
IDs returned by `add_task` are pairwise strictly increasing (so strictly
monotone in call order and never repeated): `add_task` returns `next_id`
and bumps it, and `delete_task` never lowers the counter. -/
theorem assigned_ids_strictly_increasing (m : TaskManager) (ops : List Op) :
    (assignedIds m ops).Pairwise (· < ·) ∧ (assignedIds m ops).Nodup := by
  have hp : ∀ m' : TaskManager, (assignedIds m' ops).Pairwise (· < ·) := by
    induction ops with
    | nil => intro m'; exact List.Pairwise.nil
    | cons op rest ih =>
      intro m'
      cases op with
      | add t =>
        refine List.Pairwise.cons ?_ (ih (applyOp m' (.add t)))
        intro x hx
        have := le_assignedIds rest (applyOp m' (.add t)) x hx
        have hnext : (applyOp m' (.add t)).next_id = m'.next_id + 1 := rfl
        rw [hnext] at this
        show m'.next_id < x
        omega
      | del i => exact ih (applyOp m' (.del i))
  exact ⟨hp m, (hp m).imp ne_of_lt⟩

/-- Decoding a task record produced by `to_dict` restores the task,
field by field, including the `null` encodings of unset `id` /
`deadline` / `completed_at`. -/
lemma fromDict_toDict (t : Task) : Task.fromDict t.toDict = .ok t := by
  obtain ⟨id, title, description, priority, category, completed,
    created_at, deadline, completed_at⟩ := t
  cases id <;> cases deadline <;> cases completed_at <;> rfl

/-- Decoding a list of encoded records restores the list. -/
lemma mapM_fromDict_toDict (l : List Task) :
    (l.map Task.toDict).mapM Task.fromDict = .ok l := by
  induction l with
  | nil => rfl
  | cons t rest ih =>
    rw [List.map_cons, List.mapM_cons, fromDict_toDict, ih]
    rfl

/-- C3: serialization is lossless — `from_dict (to_dict t)` returns `t`
unchanged for every task, and re-initializing a manager from the file that
`save_tasks` writes restores the same task list in the same order and the
same `next_id` counter. -/
theorem serialize_roundtrip :
    (∀ t : Task, Task.fromDict t.toDict = .ok t) ∧
    (∀ m : TaskManager,
      TaskManager.init (saveTasks m).file =
        .ok { tasks := m.tasks, next_id := m.next_id, file := (saveTasks m).file }) := by
  refine ⟨fromDict_toDict, fun m => ?_⟩
  have h1 : TaskManager.init (saveTasks m).file =
      ((m.tasks.map Task.toDict).mapM Task.fromDict >>= fun tasks =>
        Except.ok { tasks := tasks, next_id := m.next_id, file := (saveTasks m).file }) := by
    rfl
  rw [h1, mapM_fromDict_toDict]
  rfl

/-- C7: each filter view is a pure projection of the state (the Python
methods are single list comprehensions: no assignment to `self`, no
`save_tasks` call, so the embedding gives them read-only types) which
returns a sublist of `self.tasks` — insertion order preserved — holding
exactly the tasks satisfying the advertised predicate. -/
theorem filter_views_spec (m : TaskManager) (c p : String) :
    ((getTasksByCategory m c).Sublist m.tasks ∧
      ∀ t, t ∈ getTasksByCategory m c ↔ t ∈ m.tasks ∧ t.category = c) ∧
    ((getTasksByPriority m p).Sublist m.tasks ∧
      ∀ t, t ∈ getTasksByPriority m p ↔ t ∈ m.tasks ∧ t.priority = p) ∧
    ((getPendingTasks m).Sublist m.tasks ∧
      ∀ t, t ∈ getPendingTasks m ↔ t ∈ m.tasks ∧ t.completed = false) ∧
    ((getCompletedTasks m).Sublist m.tasks ∧
      ∀ t, t ∈ getCompletedTasks m ↔ t ∈ m.tasks ∧ t.completed = true) := by
  refine ⟨⟨List.filter_sublist _, fun t => ?_⟩, ⟨List.filter_sublist _, fun t => ?_⟩,
    ⟨List.filter_sublist _, fun t => ?_⟩, ⟨List.filter_sublist _, fun t => ?_⟩⟩
  · simp [getTasksByCategory, List.mem_filter]
  · simp [getTasksByPriority, List.mem_filter]
  · simp [getPendingTasks, List.mem_filter]
  · simp [getCompletedTasks, List.mem_filter]

/-- `find?` splits the list around the first match, and `erase` of that
element (what `list.remove` does) drops exactly it. -/
lemma find_erase_decomp (l : List Task) (i : Int) (t : Task)
    (h : l.find? (fun u => u.id == some i) = some t) :
    ∃ pre post, l = pre ++ t :: post ∧ (∀ u ∈ pre, u.id ≠ some i) ∧
      t.id = some i ∧ l.erase t = pre ++ post := by
  induction l with
  | nil => cases h
  | cons a rest ih =>
    rw [List.find?_cons] at h
    cases hp : (a.id == some i) with
    | true =>
      rw [hp] at h
      cases h
      refine ⟨[], rest, by simp, by simp, by simpa using hp, ?_⟩
      simp [List.erase_cons]
    | false =>
      rw [hp] at h
      obtain ⟨pre, post, hsplit, hpre, hid, herase⟩ := ih h
      refine ⟨a :: pre, post, by rw [hsplit]; rfl, ?_, hid, ?_⟩
      · intro u hu
        rcases List.mem_cons.mp hu with rfl | hu'
        · simpa using hp
        · exact hpre u hu'
      · have hne : (a == t) = false := by
          rw [beq_eq_false_iff_ne]
          intro heq
          rw [heq, hid] at hp
          simp at hp
        simp [List.erase_cons, hne, herase]

/-- C6: `delete_task` on an absent ID returns `False` and leaves the whole
state — task list, counter, and backing file — untouched (no
`save_tasks` call happens); on a present ID it removes exactly the first
task with that ID, keeps the rest in order, persists via `save_tasks`, and
returns `True`. -/
theorem delete_task_spec (m : TaskManager) (i : Int) :
    ((∀ t ∈ m.tasks, t.id ≠ some i) → deleteTask m i = (false, m)) ∧
    (∀ t, getTask m i = some t →
      ∃ pre post, m.tasks = pre ++ t :: post ∧ (∀ u ∈ pre, u.id ≠ some i) ∧
        t.id = some i ∧
        deleteTask m i = (true, saveTasks { m with tasks := pre ++ post })) := by
  constructor
  · intro habs
    have hnone : getTask m i = none := by
      rw [getTask, List.find?_eq_none]
      intro t ht
      simpa using habs t ht
    unfold deleteTask
    rw [hnone]
  · intro t hfind
    obtain ⟨pre, post, hsplit, hpre, hid, herase⟩ := find_erase_decomp m.tasks i t hfind
    refine ⟨pre, post, hsplit, hpre, hid, ?_⟩
    unfold deleteTask
    rw [hfind]
    show (true, saveTasks { m with tasks := m.tasks.erase t }) = _
    rw [herase]

/-- A concrete one-task store (backing file contents irrelevant here). -/
def oneTaskStore : TaskManager :=
  { tasks := [{ pendingToday with id := some 1 }], next_id := 2, file := none }

/-- C6 witness: on `oneTaskStore`, deleting the absent ID `99` returns
`False` with the state bit-identical, and deleting the present ID `1`
returns `True` and removes the task. -/
theorem delete_task_spec_witness :
    deleteTask oneTaskStore 99 = (false, oneTaskStore) ∧
    (∃ pre post, oneTaskStore.tasks = pre ++ { pendingToday with id := some 1 } :: post ∧
      (∀ u ∈ pre, u.id ≠ some 1) ∧
      ({ pendingToday with id := some 1 } : Task).id = some 1 ∧
      deleteTask oneTaskStore 1 =
        (true, saveTasks { oneTaskStore with tasks := pre ++ post })) :=
  ⟨(delete_task_spec oneTaskStore 99).1 (by decide),
   (delete_task_spec oneTaskStore 1).2 { pendingToday with id := some 1 } (by rfl)⟩

/-- `mark_complete` does not touch the task's id. -/
lemma markComplete_id (t : Task) (u : String) : (t.markComplete u).id = t.id := rfl

/-- `find?` on a cons, as an `if`. -/
lemma find?_cons_if (p : Task → Bool) (a : Task) (l : List Task) :
    (a :: l).find? p = if p a then some a else l.find? p := by
  cases h : p a <;> simp [List.find?, h]

/-- Marking the first matching task in place commutes with lookup: the
first task with the sought id in the updated list is the marked version of
the one found before. -/
lemma find_markFirst (l : List Task) (i : Int) (u : String) :
    (markFirst l i u).find? (fun t => t.id == some i) =
      (l.find? (fun t => t.id == some i)).map (fun t => t.markComplete u) := by
  induction l with
  | nil => rfl
  | cons a rest ih =>
    cases hp : (a.id == some i) with
    | true =>
      have hp' : ((a.markComplete u).id == some i) = true := hp
      rw [show markFirst (a :: rest) i u = a.markComplete u :: rest from by
        simp [markFirst, hp]]
      simp only [find?_cons_if, hp, hp', if_true]
      rfl
    | false =>
      have hp' : ((a : Task).id == some i) = false := hp
      rw [show markFirst (a :: rest) i u = a :: markFirst rest i u from by
        simp [markFirst, hp]]
      simp only [find?_cons_if, hp', Bool.false_eq_true, if_false]
      exact ih

/-- When the id is present, `complete_task` marks the first matching task
in place, persists, and returns `True`. -/
lemma completeTask_found (m : TaskManager) (i : Int) (u : String) (t0 : Task)
    (hf : getTask m i = some t0) :
    completeTask m i u = (true, saveTasks { m with tasks := markFirst m.tasks i u }) := by
  unfold completeTask
  rw [hf]

/-- C8: when `complete_task(id)` succeeds, calling it again on the same id
also succeeds: the task stays `completed = True`, but `completed_at` is
overwritten with the second call's timestamp — `mark_complete` has no
guard against double completion. -/
theorem complete_twice_spec (m : TaskManager) (i : Int) (u1 u2 : String)
    (h : (completeTask m i u1).1 = true) :
    (completeTask (completeTask m i u1).2 i u2).1 = true ∧
    ∃ t, getTask (completeTask (completeTask m i u1).2 i u2).2 i = some t ∧
      t.completed = true ∧ t.completed_at = some u2 := by
  cases hf : getTask m i with
  | none =>
    unfold completeTask at h
    rw [hf] at h
    cases h
  | some t0 =>
    have h1 := completeTask_found m i u1 t0 hf
    have hfind1 : getTask (completeTask m i u1).2 i = some (t0.markComplete u1) := by
      rw [h1]
      show (markFirst m.tasks i u1).find? (fun t => t.id == some i) = _
      rw [find_markFirst,
        show m.tasks.find? (fun t => t.id == some i) = some t0 from hf]
      rfl
    have h2 := completeTask_found ((completeTask m i u1).2) i u2 (t0.markComplete u1) hfind1
    refine ⟨by rw [h2], ⟨(t0.markComplete u1).markComplete u2, ?_, rfl, rfl⟩⟩
    rw [h2]
    show (markFirst ((completeTask m i u1).2).tasks i u2).find? (fun t => t.id == some i) = _
    rw [find_markFirst,
      show ((completeTask m i u1).2).tasks.find? (fun t => t.id == some i) =
        some (t0.markComplete u1) from hfind1]
    rfl

/-- C8 witness: completing task `1` of `oneTaskStore` twice keeps it
completed and leaves the second timestamp in `completed_at`. -/
theorem complete_twice_witness :
    (completeTask (completeTask oneTaskStore 1 "2024-05-11 08:00:00").2 1 "2024-05-12 09:30:00").1 = true ∧
    ∃ t, getTask (completeTask (completeTask oneTaskStore 1 "2024-05-11 08:00:00").2 1 "2024-05-12 09:30:00").2 1 = some t ∧
      t.completed = true ∧ t.completed_at = some "2024-05-12 09:30:00" :=
  complete_twice_spec oneTaskStore 1 "2024-05-11 08:00:00" "2024-05-12 09:30:00" (by rfl)

/-- A concrete valid task carrying id `5`, used to exhibit the silent
defaulting of a missing `next_id` key. -/
def taskFive : Task :=
  { id := some 5
    title := "pay rent"
    description := ""
    priority := "medium"
    category := "general"
    completed := false
    created_at := "2024-01-01 09:00:00"
    deadline := none
    completed_at := none }

/-- An existing backing file that parses as JSON but is missing the
`next_id` key required by the on-disk contract. -/
def fileMissingNextId : Option FileData :=
  some (.json (.obj [("tasks", .arr [taskFive.toDict])]))

/-- C5 counterexample: the backing file exists and is not of the expected
`{"next_id": ..., "tasks": [...]}` shape (no `next_id` key), yet
`__init__`/`load_tasks` does NOT fail — `data.get('next_id', 1)` silently
defaults the counter to `1`, below the loaded task's id `5`, a partial
recovery the claim rules out. -/
theorem init_silent_default_counterexample :
    lookupField [("tasks", JVal.arr [taskFive.toDict])] "next_id" = none ∧
    taskFive.id = some 5 ∧
    TaskManager.init fileMissingNextId =
      .ok { tasks := [taskFive], next_id := 1, file := fileMissingNextId } := by
  refine ⟨rfl, rfl, ?_⟩
  rfl

/-- The nine fields `Task.from_dict` subscripts; absence of any of them
raises `KeyError`. -/
def requiredKeys : List String :=
  ["title", "description", "priority", "category", "deadline",
   "id", "completed", "created_at", "completed_at"]

/-- Head reduction of `Except` bind on an error. -/
lemma error_bind {α β : Type} (e : LoadErr) (f : α → Except LoadErr β) :
    (Except.error e >>= f : Except LoadErr β) = Except.error e := rfl

/-- Head reduction of `Except` bind on a success. -/
lemma ok_bind {α β : Type} (a : α) (f : α → Except LoadErr β) :
    (Except.ok a >>= f : Except LoadErr β) = f a := rfl

/-- A successful `Except` bind factors through a successful first action. -/
lemma bind_eq_ok {α β : Type} {x : Except LoadErr α} {f : α → Except LoadErr β} {b : β}
    (h : x >>= f = .ok b) : ∃ a, x = .ok a ∧ f a = .ok b := by
  cases x with
  | error e => cases h
  | ok a => exact ⟨a, rfl, h⟩

/-- `data[k]` on a string field succeeds only when the key is present. -/
lemma getStr_ok_isSome {fields : List (String × JVal)} {k s : String}
    (h : getStr fields k = .ok s) : (lookupField fields k).isSome = true := by
  unfold getStr at h
  cases hl : lookupField fields k with
  | none => rw [hl] at h; cases h
  | some v => rfl

/-- `data[k]` on a bool field succeeds only when the key is present. -/
lemma getBool_ok_isSome {fields : List (String × JVal)} {k : String} {b : Bool}
    (h : getBool fields k = .ok b) : (lookupField fields k).isSome = true := by
  unfold getBool at h
  cases hl : lookupField fields k with
  | none => rw [hl] at h; cases h
  | some v => rfl

/-- `data[k]` on an optional-int field succeeds only when the key is
present. -/
lemma getOptInt_ok_isSome {fields : List (String × JVal)} {k : String} {v : Option Int}
    (h : getOptInt fields k = .ok v) : (lookupField fields k).isSome = true := by
  unfold getOptInt at h
  cases hl : lookupField fields k with
  | none => rw [hl] at h; cases h
  | some w => rfl

/-- `data[k]` on an optional-string field succeeds only when the key is
present. -/
lemma getOptStr_ok_isSome {fields : List (String × JVal)} {k : String} {v : Option String}
    (h : getOptStr fields k = .ok v) : (lookupField fields k).isSome = true := by
  unfold getOptStr at h
  cases hl : lookupField fields k with
  | none => rw [hl] at h; cases h
  | some w => rfl

/-- If `from_dict` succeeds on a record, every required key was present. -/
lemma fromDict_ok_lookup (recFields : List (String × JVal)) (t : Task)
    (h : Task.fromDict (.obj recFields) = .ok t) :
    ∀ k ∈ requiredKeys, (lookupField recFields k).isSome = true := by
  simp only [Task.fromDict] at h
  obtain ⟨title, h1, h⟩ := bind_eq_ok h
  obtain ⟨description, h2, h⟩ := bind_eq_ok h
  obtain ⟨priority, h3, h⟩ := bind_eq_ok h
  obtain ⟨category, h4, h⟩ := bind_eq_ok h
  obtain ⟨deadline, h5, h⟩ := bind_eq_ok h
  obtain ⟨id, h6, h⟩ := bind_eq_ok h
  obtain ⟨completed, h7, h⟩ := bind_eq_ok h
  obtain ⟨created_at, h8, h⟩ := bind_eq_ok h
  obtain ⟨completed_at, h9, h⟩ := bind_eq_ok h
  intro k hk
  simp only [requiredKeys, List.mem_cons, List.not_mem_nil, or_false] at hk
  rcases hk with rfl | rfl | rfl | rfl | rfl | rfl | rfl | rfl | rfl
  · exact getStr_ok_isSome h1
  · exact getStr_ok_isSome h2
  · exact getStr_ok_isSome h3
  · exact getStr_ok_isSome h4
  · exact getOptStr_ok_isSome h5
  · exact getOptInt_ok_isSome h6
  · exact getBool_ok_isSome h7
  · exact getStr_ok_isSome h8
  · exact getOptStr_ok_isSome h9

/-- A record missing any required key makes `from_dict` raise. -/
lemma fromDict_error_of_missing (recFields : List (String × JVal)) (k : String)
    (hmem : k ∈ requiredKeys) (hnone : lookupField recFields k = none) :
    ∃ e, Task.fromDict (.obj recFields) = .error e := by
  cases hres : Task.fromDict (.obj recFields) with
  | error e => exact ⟨e, rfl⟩
  | ok t =>
    have := fromDict_ok_lookup recFields t hres k hmem
    rw [hnone] at this
    cases this

/-- Decoding a list of records fails when any member fails. -/
lemma mapM_error_of_mem (recs : List JVal) (rec : JVal) (hmem : rec ∈ recs)
    (e : LoadErr) (herr : Task.fromDict rec = .error e) :
    ∃ e1, recs.mapM Task.fromDict = .error e1 := by
  induction recs with
  | nil => cases hmem
  | cons a rest ih =>
    rw [List.mapM_cons]
    cases hfa : Task.fromDict a with
    | error e0 =>
      rw [error_bind]
      exact ⟨e0, rfl⟩
    | ok b =>
      rcases List.mem_cons.mp hmem with rfl | hmem1
      · rw [hfa] at herr; cases herr
      · obtain ⟨e1, herr1⟩ := ih hmem1
        rw [ok_bind, herr1]
        exact ⟨e1, rfl⟩

/-- C5 (amended): `__init__` with an absent file yields the empty store
with counter `1`; a file that is not valid JSON, or whose top-level value
is anything but an object, or whose tasks array contains a record missing
any of the nine required fields, is a fatal error; but an object missing
the top-level `next_id` / `tasks` keys is NOT an error — those keys are
silently defaulted to `1` and `[]`. -/
theorem init_behavior_spec :
    (TaskManager.init none = .ok { tasks := [], next_id := 1, file := none }) ∧
    (TaskManager.init (some .junk) = .error .jsonDecode) ∧
    (∀ v : JVal, (∀ fields, v ≠ JVal.obj fields) →
      ∃ e, TaskManager.init (some (.json v)) = .error e) ∧
    (∀ fields recs recFields k,
      lookupField fields "tasks" = some (.arr recs) →
      JVal.obj recFields ∈ recs →
      k ∈ requiredKeys →
      lookupField recFields k = none →
      ∃ e, TaskManager.init (some (.json (.obj fields))) = .error e) ∧
    (∀ fields, lookupField fields "next_id" = none → lookupField fields "tasks" = none →
      TaskManager.init (some (.json (.obj fields))) =
        .ok { tasks := [], next_id := 1, file := some (.json (.obj fields)) }) := by
  refine ⟨rfl, rfl, fun v hv => ?_, fun fields recs recFields k htasks hmem hkmem hknone => ?_,
    fun fields h1 h2 => ?_⟩
  · cases v with
    | null => exact ⟨.typeError, rfl⟩
    | bool b => exact ⟨.typeError, rfl⟩
    | int n => exact ⟨.typeError, rfl⟩
    | str s => exact ⟨.typeError, rfl⟩
    | arr l => exact ⟨.typeError, rfl⟩
    | obj fields => exact absurd rfl (hv fields)
  · obtain ⟨e, herr⟩ := fromDict_error_of_missing recFields k hkmem hknone
    obtain ⟨e1, herr1⟩ := mapM_error_of_mem recs (.obj recFields) hmem e herr
    simp only [TaskManager.init, loadTasks]
    cases hnl : lookupField fields "next_id" with
    | none =>
      simp only [htasks, pure_bind]
      rw [herr1]
      exact ⟨e1, rfl⟩
    | some v =>
      cases v with
      | int n =>
        simp only [htasks, pure_bind]
        rw [herr1]
        exact ⟨e1, rfl⟩
      | null => exact ⟨.typeError, rfl⟩
      | bool b => exact ⟨.typeError, rfl⟩
      | str s => exact ⟨.typeError, rfl⟩
      | arr l => exact ⟨.typeError, rfl⟩
      | obj o => exact ⟨.typeError, rfl⟩
  · unfold TaskManager.init loadTasks
    simp only [h1, h2]
    rfl

/-- C5 witness: a non-object top-level value fails, a file whose tasks
array holds a record with only an `id` field fails (`KeyError: 'title'`),
and an empty JSON object initializes to the empty store with counter `1`. -/
theorem init_behavior_spec_witness :
    (∃ e, TaskManager.init (some (.json (.str "nope"))) = .error e) ∧
    (∃ e, TaskManager.init
      (some (.json (.obj [("tasks", .arr [JVal.obj [("id", .int 3)]])]))) = .error e) ∧
    TaskManager.init (some (.json (.obj []))) =
      .ok { tasks := [], next_id := 1, file := some (.json (.obj [])) } :=
  ⟨init_behavior_spec.2.2.1 (.str "nope") (fun fields h => by cases h),
   init_behavior_spec.2.2.2.1 [("tasks", .arr [JVal.obj [("id", .int 3)]])]
     [JVal.obj [("id", .int 3)]] [("id", .int 3)] "title"
     rfl (List.mem_singleton.mpr rfl) (by simp [requiredKeys]) rfl,
   init_behavior_spec.2.2.2.2 [] rfl rfl⟩

/-- C1 witness: a concrete add/delete/add run from a fresh store hands out
strictly increasing, duplicate-free IDs. -/
theorem assigned_ids_witness :
    (assignedIds { tasks := [], next_id := 1, file := none }
        [.add pendingToday, .del 1, .add pendingToday]).Pairwise (· < ·) ∧
    (assignedIds { tasks := [], next_id := 1, file := none }
        [.add pendingToday, .del 1, .add pendingToday]).Nodup :=
  assigned_ids_strictly_increasing { tasks := [], next_id := 1, file := none }
    [.add pendingToday, .del 1, .add pendingToday]

/-- C2 witness (for the amended statement): a pending task whose deadline
was the previous calendar day is overdue at 00:30 of the next day. -/
theorem is_overdue_iff_after_midnight_witness :
    pendingToday.isOverdue ⟨2024, 5, 11, 0, 30, 0⟩ = .ok true :=
  (is_overdue_iff_after_midnight pendingToday ⟨2024, 5, 11, 0, 30, 0⟩).mpr
    ⟨"2024-05-10", ⟨2024, 5, 10⟩, rfl, by decide, rfl, rfl, rfl⟩

/-- C3 witness: the round trip evaluated on a concrete task and a concrete
one-task store. -/
theorem serialize_roundtrip_witness :
    Task.fromDict (Task.toDict doneBadDeadline) = .ok doneBadDeadline ∧
    TaskManager.init (saveTasks oneTaskStore).file =
      .ok { tasks := oneTaskStore.tasks, next_id := oneTaskStore.next_id,
            file := (saveTasks oneTaskStore).file } :=
  ⟨serialize_roundtrip.1 doneBadDeadline, serialize_roundtrip.2 oneTaskStore⟩

/-- C4 witness: the completion invariant evaluated after construction
followed by two concrete `mark_complete` calls. -/
theorem completion_invariant_witness :
    completionInv (["2024-05-11 08:00:00", "2024-05-12 09:30:00"].foldl Task.markComplete
      (Task.construct "w" "" "high" "general" none "2024-05-10 07:00:00")) :=
  construct_markComplete_completion_invariant "w" "" "high" "general" none
    "2024-05-10 07:00:00" ["2024-05-11 08:00:00", "2024-05-12 09:30:00"]

/-- C7 witness: the category view evaluated on a concrete store. -/
theorem filter_views_witness :
    (getTasksByCategory oneTaskStore "general").Sublist oneTaskStore.tasks ∧
    ∀ t, t ∈ getTasksByCategory oneTaskStore "general" ↔
      t ∈ oneTaskStore.tasks ∧ t.category = "general" :=
  (filter_views_spec oneTaskStore "general" "high").1

end App
